import Mathlib

/-!
# f1livetiming client: connection lifecycle, envelope decoding and dispatch

A shallow embedding of `f1livetiming/client.go`.

* Go strings are byte sequences (`GoString`), written with `lit` for ASCII literals.
* A Go `error` value is an `Option GoError`, `none` standing for `nil`.
* Functions of the Go standard library and of `golang.org/x/net/websocket` whose results
  depend on the network or on a parser outside this package are fields of `Lib`; the
  query-string functions of `net/url` that the connect target depends on are modelled
  concretely (`QueryEscape`, `Encode`, `QueryUnescape`, `ParseQuery`).
* Effects (channel operations, socket operations, handler calls, prints) are recorded as a
  chronological list of `Event`s. The bodies of the topic handlers `writeToWeatherChannel` and
  `writeToRaceControlChannel` are outside the translated file; a call of one is an event.
* The streaming phase of `Connect` runs two goroutines over the shared variables `listening`
  and `err`; it is a step function `step` driven by a schedule of `Action`s, under
  sequentially consistent interleaving of the statements. A send on `c.Done` is taken to find
  its receiver, and a call of a topic handler is taken to return.
-/

namespace F1LiveTiming

/-! ## Strings and errors -/

/-- A Go string: a sequence of bytes. -/
abbrev GoString := List Nat

/-- The bytes of an ASCII literal. -/
def lit (s : String) : GoString := s.toList.map Char.toNat

/-- Every element of the sequence is a byte. -/
def IsBytes (s : GoString) : Prop := ∀ b ∈ s, b < 256

/-- A non-nil Go error: `errors.New(msg)` (or any library error with that text), or
`fmt.Errorf(pre + "%w", inner)`. -/
inductive GoError where
  | new (msg : GoString)
  | wrap (pre : GoString) (inner : GoError)
deriving DecidableEq, Repr

/-- The method `Error()`. -/
def GoError.Error : GoError → GoString
  | .new msg => msg
  | .wrap pre inner => pre ++ inner.Error

/-! ## Wire types -/

/-- A value of Go type `any` as produced by `encoding/json`: nil, bool, float64 (a rational,
since JSON has no NaN or infinity), string, `[]any`, `map[string]any`. -/
inductive Any where
  | null
  | bool (b : Bool)
  | num (q : ℚ)
  | str (s : GoString)
  | arr (xs : List Any)
  | obj (kvs : List (GoString × Any))

/-- The struct `F1NestedMessage`. -/
structure F1NestedMessage where
  Hub : GoString
  Message : GoString
  Arguments : List Any

/-- The struct `F1Message`. -/
structure F1Message where
  Messages : List F1NestedMessage

/-- The struct `NegotiateResponse`, reduced to the one field `Negotiate` reads. -/
structure NegotiateResponse where
  ConnectionToken : GoString

/-- The fields of `url.URL` that the client sets or reads; the others keep their zero value. -/
structure URL where
  Scheme : GoString
  Host : GoString
  Path : GoString
  RawQuery : GoString
deriving DecidableEq, Repr

/-- The type `url.Values` (`map[string][]string`) as an association list with distinct keys. -/
abbrev Values := List (GoString × List GoString)

/-- The type `http.Header`. -/
abbrev Header := List (GoString × List GoString)

/-- The struct `websocket.Config`; the URLs `Location` and `Origin` are held as the texts that
`websocket.NewConfig` parsed them from. -/
structure Config where
  Location : GoString
  Origin : GoString
  Header : Header
deriving DecidableEq, Repr

/-- The `http.Request` literal that `Negotiate` builds. -/
structure Request where
  Method : GoString
  URL : URL
deriving DecidableEq, Repr

/-- The parts of `http.Response` that `Negotiate` reads: status code and text, the first
`set-cookie` header value (`Header.Get`, empty when absent) and the outcome of `io.ReadAll` on
the body. -/
structure Response where
  StatusCode : Int
  Status : GoString
  SetCookie : GoString
  Body : Except GoError GoString

/-- The result of `websocket.NewConfig`: it always allocates the config, and on failure returns
the pointer it has (modelled as optional) together with the error. -/
inductive NewConfigResult where
  | ok (config : Config)
  | fail (config : Option Config) (err : GoError)

/-- The result of `websocket.DialConfig`: a socket, an error, or a run-time panic (nil
configuration pointer). -/
inductive DialResult where
  | sock
  | fail (err : GoError)
  | panicked

/-- The struct `Client`; the channels are represented by the events on them. -/
structure Client where
  ConnectionToken : GoString
  Cookie : GoString
  HTTPBaseURL : GoString
  WSBaseURL : GoString
deriving DecidableEq, Repr

/-- Library functions outside this package, taken as parameters. -/
structure Lib where
  /-- Function `url.Parse`. -/
  urlParse : GoString → Except GoError URL
  /-- Method `(*url.URL).String`. -/
  urlString : URL → GoString
  /-- Function `websocket.NewConfig(server, origin)`. -/
  newConfig : GoString → GoString → NewConfigResult
  /-- Function `websocket.DialConfig`; the argument is the (possibly nil) config pointer. -/
  dialConfig : Option Config → DialResult
  /-- Method `http.DefaultClient.Do`. -/
  httpDo : Request → Except GoError Response
  /-- Function `json.Unmarshal` into an `F1Message`. -/
  unmarshalF1Message : GoString → Except GoError F1Message
  /-- Function `json.Unmarshal` into a `NegotiateResponse`. -/
  unmarshalNegotiateResponse : GoString → Except GoError NegotiateResponse

/-! ## Events -/

/-- What one `websocket.Message.Receive` returns: a text frame or an error. -/
inductive Recv where
  | frame (msg : GoString)
  | fail (err : GoError)

/-- Observable effects, in the order they happen. -/
inductive Event where
  /-- Statement `c.Done <- v`. -/
  | doneSend (v : Option GoError)
  /-- Statement `close(c.Done)`. -/
  | doneClose
  /-- Call of `c.getWebsocketConfig()`. -/
  | getWebsocketConfig
  /-- Call of `websocket.DialConfig(config)`. -/
  | dialConfig (config : Option Config)
  /-- A run-time panic that ends the goroutine. -/
  | panicked
  /-- Call of `sendSubscribe(sock)`. -/
  | sendSubscribe
  /-- Statement `go func() { ... }()`: the read loop starts. -/
  | goReadLoop
  /-- Statement `<-c.Interrupt` completed. -/
  | interruptRecv
  /-- Statement `listening = false`. -/
  | listeningFalse
  /-- Deferred `sock.Close()`. -/
  | sockClose
  /-- Loop condition `for listening` evaluated. -/
  | loopCheck (listening : Bool)
  /-- Call of `websocket.Message.Receive` returned. -/
  | receive (r : Recv)
  /-- The read loop returned after end-of-stream (`err = nil; return`). -/
  | loopEndEOF
  /-- The read loop returned after another receive failure. -/
  | loopEndFail (err : GoError)
  /-- Call of `fmt.Println` with these operands. -/
  | println (args : List GoString)
  /-- Call of `c.processMessage(msg)`. -/
  | processMessage (msg : GoString)
  /-- Call of `c.writeToWeatherChannel(m)`. -/
  | writeToWeatherChannel (m : F1NestedMessage)
  /-- Call of `c.writeToRaceControlChannel(m)`. -/
  | writeToRaceControlChannel (m : F1NestedMessage)

/-- The event is a call of one of the two topic handlers. -/
def Event.isHandler : Event → Bool
  | .writeToWeatherChannel _ => true
  | .writeToRaceControlChannel _ => true
  | _ => false

/-! ## processMessage -/

/-- The body of the `for _, m := range messageData.Messages` loop for one entry: the shape
test and the `switch m.Arguments[0]`. An interface value equals a string constant only when its
dynamic type is string and the text is the same; no case matching means no call. -/
def processEntry (m : F1NestedMessage) : List Event :=
  if m.Hub = lit "Streaming" ∧ m.Message = lit "feed" ∧ m.Arguments.length = 3 then
    match m.Arguments.head? with
    | some (.str s) =>
      if s = lit "WeatherData" then [.writeToWeatherChannel m]
      else if s = lit "RaceControlMessages" then [.writeToRaceControlChannel m]
      else []
    | _ => []
  else []

/-- The loop `for _, m := range messageData.Messages`. -/
def processEntries : List F1NestedMessage → List Event
  | [] => []
  | m :: rest => processEntry m ++ processEntries rest

/-- The method `Client.processMessage`: the events it causes. It has no result and no way to
report an error. -/
def processMessage (lib : Lib) (msg : GoString) : List Event :=
  match lib.unmarshalF1Message msg with
  | .error _ => [.println [lit "ERROR UNMARSHALLING MSG:", msg]]
  | .ok messageData => processEntries messageData.Messages

/-! ## Query strings (`net/url`) -/

/-- The function `shouldEscape(c, encodeQueryComponent)`: everything is escaped except ASCII
letters, digits and the marks `-`, `_`, `.`, `~`. -/
def shouldEscape (c : Nat) : Bool :=
  !((97 ≤ c ∧ c ≤ 122) ∨ (65 ≤ c ∧ c ≤ 90) ∨ (48 ≤ c ∧ c ≤ 57)
    ∨ c = 45 ∨ c = 95 ∨ c = 46 ∨ c = 126)

/-- The table `upperhex = "0123456789ABCDEF"`, indexed. -/
def upperhex (n : Nat) : Nat := (lit "0123456789ABCDEF").getD n 0

/-- The function `url.QueryEscape`: an unescaped byte is copied, a space becomes `+`, any
other byte `c` becomes `%` followed by `upperhex[c>>4]` and `upperhex[c&15]`. -/
def QueryEscape : GoString → GoString
  | [] => []
  | c :: s =>
    (if !shouldEscape c then [c]
     else if c = 32 then [43]
     else [37, upperhex (c >>> 4), upperhex (c &&& 15)]) ++ QueryEscape s

/-- The function `ishex`. -/
def ishex (c : Nat) : Bool :=
  (48 ≤ c ∧ c ≤ 57) ∨ (97 ≤ c ∧ c ≤ 102) ∨ (65 ≤ c ∧ c ≤ 70)

/-- The function `unhex`. -/
def unhex (c : Nat) : Nat :=
  if 48 ≤ c ∧ c ≤ 57 then c - 48
  else if 97 ≤ c ∧ c ≤ 102 then c - 97 + 10
  else if 65 ≤ c ∧ c ≤ 70 then c - 65 + 10
  else 0

/-- The function `url.QueryUnescape`: `%XY` becomes the byte `unhex(X)<<4 | unhex(Y)`, `+`
becomes a space, and a `%` not followed by two hex digits is an `EscapeError` carrying the
offending bytes (at most three). -/
def QueryUnescape : GoString → Except GoError GoString
  | [] => .ok []
  | c :: s =>
    if c = 37 then
      match s with
      | h :: l :: rest =>
        if ishex h ∧ ishex l then
          (QueryUnescape rest).map (fun t => (((unhex h <<< 4) % 256) ||| unhex l) :: t)
        else .error (.wrap (lit "invalid URL escape ") (.new ((c :: s).take 3)))
      | _ => .error (.wrap (lit "invalid URL escape ") (.new ((c :: s).take 3)))
    else if c = 43 then (QueryUnescape s).map (fun t => 32 :: t)
    else (QueryUnescape s).map (fun t => c :: t)

/-- Map read `m[k]`: the values stored under the key, nil when the key is absent. -/
def valuesGet (m : Values) (k : GoString) : List GoString := (m.lookup k).getD []

/-- Statement `m[key] = append(m[key], value)`. -/
def valuesAdd : Values → GoString → GoString → Values
  | [], k, v => [(k, [v])]
  | (k', vs) :: m, k, v =>
    if k' = k then (k', vs ++ [v]) :: m else (k', vs) :: valuesAdd m k v

/-- The method `url.Values.Encode`: keys in sorted (bytewise) order, each value written as
`key=value` with both escaped, the pairs joined by `&`. -/
def Encode (v : Values) : GoString :=
  ((v.map Prod.fst).insertionSort (· ≤ ·)).foldl
    (fun buf k =>
      (valuesGet v k).foldl
        (fun buf val =>
          (if buf.length > 0 then buf ++ [38] else buf) ++ QueryEscape k ++ [61] ++ QueryEscape val)
        buf)
    []

/-- The function `strings.Cut(s, sep)` for a one-byte separator: the text before the first
separator and the text after it (empty when there is none). -/
def cut (sep : Nat) : GoString → GoString × GoString
  | [] => ([], [])
  | c :: s => if c = sep then ([], s) else ((c :: (cut sep s).1), (cut sep s).2)

/-- The segments that the loop of `parseQuery` takes off the query one after the other with
`strings.Cut(query, "&")`. -/
def segments : GoString → List GoString
  | [] => [[]]
  | c :: s =>
    if c = 38 then [] :: segments s
    else match segments s with
      | [] => [[c]]
      | seg :: segs => (c :: seg) :: segs

/-- One iteration of the loop of `parseQuery` on the segment `key`: a segment with a
semicolon sets the error and is skipped, an empty segment is skipped, otherwise the segment is
cut at `=`, both halves are unescaped (the first unescape error is kept) and the value is
appended under the key. -/
def parseQueryStep (st : Values × Option GoError) (key : GoString) : Values × Option GoError :=
  if 59 ∈ key then (st.1, some (.new (lit "invalid semicolon separator in query")))
  else if key = [] then st
  else
    match QueryUnescape (cut 61 key).1 with
    | .error err1 => (st.1, if st.2 = none then some err1 else st.2)
    | .ok k =>
      match QueryUnescape (cut 61 key).2 with
      | .error err1 => (st.1, if st.2 = none then some err1 else st.2)
      | .ok value => (valuesAdd st.1 k value, st.2)

/-- The function `url.ParseQuery`: the map and the first error met. -/
def ParseQuery (query : GoString) : Values × Option GoError :=
  (segments query).foldl parseQueryStep ([], none)

/-! ## The client -/

/-- The value of the `connectionData` parameter, the text `[{"Name":"Streaming"}]`. -/
def streamingData : GoString := lit "[\x7b\"Name\":\"Streaming\"\x7d]"

/-- The `url.URL` literal built in `getWebsocketConfig` from the parsed base URL `b`. -/
def connectURL (c : Client) (b : URL) : URL :=
  { Scheme := b.Scheme
    Host := b.Host
    Path := lit "/signalr/connect"
    RawQuery := Encode
      [ (lit "connectionData", [streamingData]),
        (lit "connectionToken", [c.ConnectionToken]),
        (lit "clientProtocol", [lit "1.5"]),
        (lit "transport", [lit "webSockets"]) ] }

/-- The method `Client.getWebsocketConfig`: the config pointer (possibly nil) and the error. -/
def getWebsocketConfig (lib : Lib) (c : Client) : Option Config × Option GoError :=
  match lib.urlParse c.WSBaseURL with
  | .error err => (none, some (.wrap (lit "invalid BaseURL: ") err))
  | .ok b =>
    match lib.newConfig (lib.urlString (connectURL c b)) (lib.urlString (connectURL c b)) with
    | .fail config err => (config, some (.wrap (lit "error creating websocket config: ") err))
    | .ok config =>
      (some { config with
                Header := [ (lit "User-Agent", [lit "BestHTTP"]),
                            (lit "Accept-Encoding", [lit "gzip,identity"]),
                            (lit "Cookie", [c.Cookie]) ] },
       none)

/-- The function `parseNegotationConnectionToken`, on the outcome of reading the body. -/
def parseNegotationConnectionToken (lib : Lib) (body : Except GoError GoString) :
    GoString × Option GoError :=
  match body with
  | .error err => ([], some err)
  | .ok b =>
    match lib.unmarshalNegotiateResponse b with
    | .error err => ([], some err)
    | .ok n => (n.ConnectionToken, none)

/-- The request that `Negotiate` sends, from the parsed base URL `u`. -/
def negotiateRequest (u : URL) : Request :=
  { Method := lit "POST"
    URL :=
      { Scheme := u.Scheme
        Host := u.Host
        Path := lit "/signalr/negotiate"
        RawQuery := Encode
          [ (lit "connectionData", [streamingData]),
            (lit "clientProtocol", [lit "1.5"]) ] } }

/-- The method `Client.Negotiate`: the client afterwards and the returned error. -/
def Negotiate (lib : Lib) (c : Client) : Client × Option GoError :=
  match lib.urlParse c.HTTPBaseURL with
  | .error err => (c, some (.wrap (lit "invalid HTTPBaseURL: ") err))
  | .ok u =>
    match lib.httpDo (negotiateRequest u) with
    | .error err =>
      (c, some (.wrap (lit "error sending f1 livetiming api negotiation request: ") err))
    | .ok resp =>
      if resp.StatusCode = 200 then
        match parseNegotationConnectionToken lib resp.Body with
        | (_, some err) => (c, some (.wrap (lit "error parsing connection token: ") err))
        | (ct, none) => ({ c with ConnectionToken := ct, Cookie := resp.SetCookie }, none)
      else
        (c, some (.wrap (lit "error negotiating f1 livetiming api connection: ")
          (.new resp.Status)))

/-! ## Connect -/

/-- The statement the goroutine of `Connect` executes next, once the read loop is started. -/
inductive MainPC where
  /-- Statement `<-c.Interrupt`. -/
  | waitInterrupt
  /-- Statement `listening = false`. -/
  | setListening
  /-- Statement `c.Done <- err`. -/
  | sendDone
  /-- Statement `close(c.Done)`. -/
  | closeDone
  /-- The deferred `sock.Close()`. -/
  | sockClose
  /-- Connect has returned. -/
  | returned
deriving DecidableEq, Repr

/-- The statement the read-loop goroutine executes next. -/
inductive ReaderPC where
  /-- The loop condition `for listening`. -/
  | loopHead
  /-- Statement `err = websocket.Message.Receive(sock, &msg)`. -/
  | receive
  /-- The `if err != nil && err.Error() == "EOF" ... else if err != nil ...` test. -/
  | check (msg : GoString)
  /-- Statement `c.processMessage(msg)`. -/
  | process (msg : GoString)
  /-- The goroutine has ended. -/
  | done
deriving DecidableEq, Repr

/-- The state of the streaming phase of `Connect`: the captured variables `listening` and
`err`, the two program counters, whether a value (or a close) is pending on `c.Interrupt`, and
the events so far. -/
structure State where
  listening : Bool
  err : Option GoError
  main : MainPC
  reader : ReaderPC
  interrupt : Bool
  trace : List Event

/-- How a call of `Connect` proceeds up to the start of the read loop. -/
inductive Started where
  /-- Connect returned before streaming, with these events. -/
  | returned (trace : List Event)
  /-- Connect panicked, with these events. -/
  | panicked (trace : List Event)
  /-- The read loop was started; the streaming phase begins in this state. -/
  | streaming (s : State)

/-- The state right after `go func() { ... }()`: `listening` is true, `err` is the nil error
that `DialConfig` returned, nothing is pending on `c.Interrupt`. -/
def streamStart (trace : List Event) : State :=
  { listening := true, err := none, main := .waitInterrupt, reader := .loopHead,
    interrupt := false, trace := trace }

/-- The method `Client.Connect` up to and including the start of the read loop. The guard
after `getWebsocketConfig` is the source's `err != err`. -/
def Connect (lib : Lib) (c : Client) : Started :=
  if c.ConnectionToken = [] then
    .returned
      [ .doneSend (some (.new (lit "client.Negotiate() was not called or was unnsuccessful"))),
        .doneClose ]
  else
    let (config, err) := getWebsocketConfig lib c
    if err ≠ err then
      .returned [.getWebsocketConfig, .doneSend err, .doneClose]
    else
      match lib.dialConfig config with
      | .fail err =>
        .returned
          [ .getWebsocketConfig, .dialConfig config,
            .doneSend (some (.wrap (lit "error establishing websocket connection: ") err)),
            .doneClose ]
      | .panicked => .panicked [.getWebsocketConfig, .dialConfig config, .panicked]
      | .sock =>
        .streaming
          (streamStart [.getWebsocketConfig, .dialConfig config, .sendSubscribe, .goReadLoop])

/-- Who moves next: the caller posting on (or closing) `c.Interrupt`, the goroutine of
`Connect`, or the read-loop goroutine; `r` is what the socket yields if the reader's next
statement is the receive. -/
inductive Action where
  | interrupt
  | main
  | reader (r : Recv)

/-- One statement of the goroutine of `Connect` after the read loop was started; `none` when
it is blocked on `<-c.Interrupt` or has returned. -/
def stepMain (s : State) : Option State :=
  match s.main with
  | .waitInterrupt =>
    if s.interrupt then some { s with main := .setListening, trace := s.trace ++ [.interruptRecv] }
    else none
  | .setListening =>
    some { s with listening := false, main := .sendDone, trace := s.trace ++ [.listeningFalse] }
  | .sendDone => some { s with main := .closeDone, trace := s.trace ++ [.doneSend s.err] }
  | .closeDone => some { s with main := .sockClose, trace := s.trace ++ [.doneClose] }
  | .sockClose => some { s with main := .returned, trace := s.trace ++ [.sockClose] }
  | .returned => none

/-- One statement of the read-loop goroutine; `none` when it has ended. -/
def stepReader (lib : Lib) (r : Recv) (s : State) : Option State :=
  match s.reader with
  | .loopHead =>
    some { s with
      reader := if s.listening then .receive else .done
      trace := s.trace ++ [.loopCheck s.listening] }
  | .receive =>
    match r with
    | .frame msg => some { s with err := none, reader := .check msg, trace := s.trace ++ [.receive r] }
    | .fail e => some { s with err := some e, reader := .check [], trace := s.trace ++ [.receive r] }
  | .check msg =>
    match s.err with
    | some e =>
      if e.Error = lit "EOF" then
        some { s with err := none, reader := .done, trace := s.trace ++ [.loopEndEOF] }
      else
        some { s with
          reader := .done
          trace := s.trace ++ [.println [lit "err", e.Error], .loopEndFail e] }
    | none => some { s with reader := .process msg }
  | .process msg =>
    some { s with
      reader := .loopHead
      trace := s.trace ++ .processMessage msg :: processMessage lib msg }
  | .done => none

/-- One step of the streaming phase; `none` when the chosen goroutine cannot move. -/
def step (lib : Lib) (a : Action) (s : State) : Option State :=
  match a with
  | .interrupt => some { s with interrupt := true }
  | .main => stepMain s
  | .reader r => stepReader lib r s

/-- Run a schedule; a goroutine that cannot move when chosen is skipped. -/
def run (lib : Lib) : List Action → State → State
  | [], s => s
  | a :: sched, s => run lib sched ((step lib a s).getD s)

/-- The events on the channel `c.Done` among the events of a run. -/
def doneEvents (trace : List Event) : List Event :=
  trace.filter fun e => match e with
    | .doneSend _ => true
    | .doneClose => true
    | _ => false

/-- The number of calls of `processMessage` among the events. -/
def dispatchCount (trace : List Event) : Nat :=
  trace.countP fun e => match e with
    | .processMessage _ => true
    | _ => false

/-- The events that follow the first `listening = false` (none if it has not happened). -/
def afterListeningFalse (trace : List Event) : List Event :=
  (trace.dropWhile fun e => match e with
    | .listeningFalse => false
    | _ => true).tail

/-- The events of a call of `Connect` up to the start of the read loop. -/
def Started.trace : Started → List Event
  | .returned trace => trace
  | .panicked trace => trace
  | .streaming s => s.trace

/-! ## Invariants of the streaming phase -/

/-- What has happened on `Done` and `Interrupt` when `Connect` is at each of its statements. -/
def doneInv (s : State) : Prop :=
  match s.main with
  | .waitInterrupt => doneEvents s.trace = [] ∧ Event.interruptRecv ∉ s.trace
  | .setListening => doneEvents s.trace = [] ∧ Event.interruptRecv ∈ s.trace
  | .sendDone => doneEvents s.trace = [] ∧ Event.interruptRecv ∈ s.trace
  | .closeDone => (∃ v, doneEvents s.trace = [.doneSend v]) ∧ Event.interruptRecv ∈ s.trace
  | .sockClose =>
    (∃ v, doneEvents s.trace = [.doneSend v, .doneClose]) ∧ Event.interruptRecv ∈ s.trace
  | .returned =>
    (∃ v, doneEvents s.trace = [.doneSend v, .doneClose]) ∧ Event.interruptRecv ∈ s.trace

/-- How many more calls of `processMessage` the reader can make without evaluating the loop
condition again. -/
def pending : ReaderPC → Nat
  | .receive => 1
  | .check _ => 1
  | .process _ => 1
  | .loopHead => 0
  | .done => 0

/-- Once `listening = false` has been executed, the flag stays false, every later evaluation
of the loop condition is false, and the calls of `processMessage` since then together with the
one the reader may still be about to make are at most one. -/
def cancelInv (s : State) : Prop :=
  match s.main with
  | .waitInterrupt => Event.listeningFalse ∉ s.trace
  | .setListening => Event.listeningFalse ∉ s.trace
  | _ =>
    s.listening = false ∧ Event.listeningFalse ∈ s.trace
    ∧ dispatchCount (afterListeningFalse s.trace) + pending s.reader ≤ 1
    ∧ ∀ b, Event.loopCheck b ∈ afterListeningFalse s.trace → b = false

/-- The handler call an entry is routed to: an entry with hub "Streaming", method "feed" and
exactly three arguments whose first argument is the string "WeatherData" goes to the weather
handler, one whose first argument is the string "RaceControlMessages" goes to the race-control
handler, and any other entry goes nowhere. -/
def routedCall (m : F1NestedMessage) : Option Event :=
  if m.Hub = lit "Streaming" ∧ m.Message = lit "feed" then
    match m.Arguments with
    | [.str topic, _, _] =>
      if topic = lit "WeatherData" then some (.writeToWeatherChannel m)
      else if topic = lit "RaceControlMessages" then some (.writeToRaceControlChannel m)
      else none
    | _ => none
  else none

/-! ## Library behaviour on the inputs of the examples -/

/-- A weather feed entry. -/
def weatherEntry : F1NestedMessage :=
  { Hub := lit "Streaming", Message := lit "feed",
    Arguments := [.str (lit "WeatherData"), .obj [(lit "AirTemp", .str (lit "21.5"))], .str []] }

/-- The text of a frame carrying `weatherEntry`. -/
def weatherFrame : GoString :=
  lit "\x7b\"M\":[\x7b\"H\":\"Streaming\",\"M\":\"feed\",\"A\":[\"WeatherData\",\x7b\"AirTemp\":\"21.5\"\x7d,\"\"]\x7d]\x7d"

/-- A feed entry with only two arguments. -/
def shortEntry : F1NestedMessage :=
  { Hub := lit "Streaming", Message := lit "feed",
    Arguments := [.str (lit "WeatherData"), .obj []] }

/-- The text of a frame carrying `shortEntry` and then `weatherEntry`. -/
def mixedFrame : GoString :=
  lit ("\x7b\"M\":[\x7b\"H\":\"Streaming\",\"M\":\"feed\",\"A\":[\"WeatherData\",\x7b\x7d]\x7d,"
    ++ "\x7b\"H\":\"Streaming\",\"M\":\"feed\",\"A\":[\"WeatherData\",\x7b\"AirTemp\":\"21.5\"\x7d,\"\"]\x7d]\x7d")

/-- The library functions on the inputs used in the examples: `url.Parse` accepts
`https://x` and `wss://x` and rejects a text without a scheme before the colon, `String`
writes scheme, host, path and query, `NewConfig` accepts, `DialConfig` panics on a nil config,
fails with `ErrBadScheme` when the location has a scheme other than `ws` or `wss`, and
connects otherwise, the negotiate request is answered with status 500, and `json.Unmarshal`
decodes `weatherFrame` and `mixedFrame` and rejects any other text. -/
def exampleLib : Lib where
  urlParse s :=
    if s = lit "https://x" then .ok { Scheme := lit "https", Host := lit "x", Path := [], RawQuery := [] }
    else if s = lit "wss://x" then .ok { Scheme := lit "wss", Host := lit "x", Path := [], RawQuery := [] }
    else .error (.wrap (lit "parse " ++ [34] ++ s ++ [34] ++ lit ": ")
      (.new (lit "missing protocol scheme")))
  urlString u := u.Scheme ++ lit "://" ++ u.Host ++ u.Path ++ lit "?" ++ u.RawQuery
  newConfig server origin := .ok { Location := server, Origin := origin, Header := [] }
  dialConfig config :=
    match config with
    | none => .panicked
    | some cfg =>
      if cfg.Location.take 5 = lit "ws://" ∨ cfg.Location.take 6 = lit "wss://" then .sock
      else .fail (.wrap (lit "websocket.Dial " ++ cfg.Location ++ lit ": ") (.new (lit "bad scheme")))
  httpDo _ :=
    .ok { StatusCode := 500, Status := lit "500 Internal Server Error", SetCookie := [],
          Body := .ok [] }
  unmarshalF1Message msg :=
    if msg = weatherFrame then .ok { Messages := [weatherEntry] }
    else if msg = mixedFrame then .ok { Messages := [shortEntry, weatherEntry] }
    else .error (.new (lit "invalid character"))
  unmarshalNegotiateResponse _ := .error (.new (lit "unexpected end of JSON input"))

/-- A client as `NewClient` makes it with `WithWSBaseURL` and `WithHTTPBaseURL`, holding the
given token. -/
def exampleClient (token base : GoString) : Client :=
  { ConnectionToken := token, Cookie := [], HTTPBaseURL := base, WSBaseURL := base }

/-- The state in which `Connect` starts streaming for the token "T1" and the base URL
`wss://x`. -/
def exampleStart : State :=
  streamStart
    [ .getWebsocketConfig,
      .dialConfig (getWebsocketConfig exampleLib (exampleClient (lit "T1") (lit "wss://x"))).1,
      .sendSubscribe, .goReadLoop ]

/-- The streaming phase after the read loop has evaluated its condition once: the reader is
about to receive. -/
def receivingState : State := run exampleLib [.reader (.frame [])] exampleStart

/-- A schedule in which the remote closes the stream and nobody posts on `Interrupt`: the
reader evaluates the loop condition, the receive reports EOF, the reader returns; then both
goroutines are given further turns. -/
def remoteCloseSchedule : List Action :=
  [ .reader (.frame []), .reader (.fail (.new (lit "EOF"))), .reader (.frame []),
    .main, .reader (.frame []), .main ]

/-- A schedule in which the reader has passed the loop condition when the caller cancels, and
a frame arrives after `Connect` has observed the cancellation and cleared `listening`. -/
def lateFrameSchedule : List Action :=
  [ .reader (.frame []), .interrupt, .main, .main,
    .reader (.frame weatherFrame), .reader (.frame []), .reader (.frame []) ]

/-- A schedule in which the remote closes the stream, then the caller cancels and `Connect`
runs to its end. -/
def closeThenCancelSchedule : List Action :=
  [ .reader (.frame []), .reader (.fail (.new (lit "EOF"))), .reader (.frame []),
    .interrupt, .main, .main, .main, .main, .main ]

theorem processEntries_append (xs ys : List F1NestedMessage) :
    processEntries (xs ++ ys) = processEntries xs ++ processEntries ys := by
  induction xs with
  | nil => rfl
  | cons m xs ih => simp [processEntries, ih]

theorem processEntry_isHandler (m : F1NestedMessage) :
    ∀ e ∈ processEntry m, e.isHandler = true := by
  intro e he
  unfold processEntry at he
  split at he
  · split at he
    · split at he
      · simp at he; subst he; rfl
      · split at he
        · simp at he; subst he; rfl
        · simp at he
    · simp at he
  · simp at he

theorem processEntries_isHandler (ms : List F1NestedMessage) :
    ∀ e ∈ processEntries ms, e.isHandler = true := by
  induction ms with
  | nil => intro e he; simp [processEntries] at he
  | cons m ms ih =>
    intro e he
    simp only [processEntries, List.mem_append] at he
    rcases he with he | he
    · exact processEntry_isHandler m e he
    · exact ih e he

theorem processEntry_eq_routedCall (m : F1NestedMessage) :
    processEntry m = (routedCall m).toList := by
  obtain ⟨hub, method, args⟩ := m
  unfold processEntry routedCall
  by_cases hH : hub = lit "Streaming"
  · by_cases hM : method = lit "feed"
    · match args with
      | [] => simp [hH, hM]
      | [_] => simp [hH, hM]
      | [_, _] => simp [hH, hM]
      | _ :: _ :: _ :: _ :: _ => simp [hH, hM]
      | [a, _, _] =>
        cases a <;> simp [hH, hM]
        split <;> [rfl; (split <;> rfl)]
    · simp [hM]
  · simp [hH]

/-- C3: in a frame that parses, an entry whose hub is not "Streaming", or whose method is not
"feed", or whose argument list does not have exactly 3 elements causes no event at all (no
handler call whatever its first argument, no error); the events of the frame are the handler
calls of the entries before it followed by those of the entries after it. -/
theorem processMessage_skips_unqualified (lib : Lib) (msg : GoString) (messageData : F1Message)
    (before after : List F1NestedMessage) (m : F1NestedMessage)
    (hparse : lib.unmarshalF1Message msg = .ok messageData)
    (hentries : messageData.Messages = before ++ m :: after)
    (hshape : ¬(m.Hub = lit "Streaming" ∧ m.Message = lit "feed" ∧ m.Arguments.length = 3)) :
    processEntry m = []
    ∧ processMessage lib msg = processEntries before ++ processEntries after
    ∧ ∀ e ∈ processMessage lib msg, e.isHandler = true := by
  have h1 : processEntry m = [] := by
    unfold processEntry
    rw [if_neg hshape]
  have h2 : processMessage lib msg = processEntries before ++ processEntries after := by
    unfold processMessage
    rw [hparse]
    simp only [hentries, processEntries_append, processEntries, h1, List.nil_append]
  refine ⟨h1, h2, ?_⟩
  rw [h2, ← processEntries_append]
  exact processEntries_isHandler _

theorem processMessage_skips_unqualified_witness :
    processEntry shortEntry = []
    ∧ processMessage exampleLib mixedFrame = processEntries [] ++ processEntries [weatherEntry]
    ∧ ∀ e ∈ processMessage exampleLib mixedFrame, e.isHandler = true :=
  processMessage_skips_unqualified exampleLib mixedFrame ⟨[shortEntry, weatherEntry]⟩ []
    [weatherEntry] shortEntry (by rfl) (by rfl) (by decide)

/-- C4: for a frame that parses, the events of `processMessage` are exactly, in entry-list
order, the handler calls the entries are routed to: the weather handler for a qualifying
entry whose first argument is the string "WeatherData", the race-control handler for one whose
first argument is the string "RaceControlMessages", nothing (and no error) for any other. -/
theorem processMessage_routes_in_order (lib : Lib) (msg : GoString) (messageData : F1Message)
    (hparse : lib.unmarshalF1Message msg = .ok messageData) :
    processMessage lib msg = messageData.Messages.filterMap routedCall := by
  unfold processMessage
  rw [hparse]
  simp only
  induction messageData.Messages with
  | nil => rfl
  | cons m ms ih =>
    rw [processEntries, ih, processEntry_eq_routedCall]
    cases h : routedCall m <;> simp [List.filterMap_cons, h]

theorem processMessage_routes_in_order_witness :
    processMessage exampleLib mixedFrame
      = [shortEntry, weatherEntry].filterMap routedCall :=
  processMessage_routes_in_order exampleLib mixedFrame ⟨[shortEntry, weatherEntry]⟩ (by rfl)

/-- C5: a frame text that fails to parse makes `processMessage` call no handler; the read loop
that received it goes on: it prints the diagnostic, evaluates the loop condition again,
receives the next frame and processes it. -/
theorem unparseable_frame_is_dropped (lib : Lib) (msg next : GoString) (err : GoError)
    (s : State) (r : Recv)
    (hparse : lib.unmarshalF1Message msg = .error err)
    (hpc : s.reader = .receive) (hlistening : s.listening = true) :
    (∀ e ∈ processMessage lib msg, e.isHandler = false)
    ∧ (run lib [.reader (.frame msg), .reader r, .reader r, .reader r,
          .reader (.frame next), .reader r, .reader r] s).trace
        = s.trace ++ [.receive (.frame msg), .processMessage msg,
            .println [lit "ERROR UNMARSHALLING MSG:", msg], .loopCheck true,
            .receive (.frame next), .processMessage next] ++ processMessage lib next
    ∧ (run lib [.reader (.frame msg), .reader r, .reader r, .reader r,
          .reader (.frame next), .reader r, .reader r] s).reader = .loopHead := by
  have hp : processMessage lib msg = [.println [lit "ERROR UNMARSHALLING MSG:", msg]] := by
    unfold processMessage
    rw [hparse]
  refine ⟨?_, ?_, ?_⟩
  · intro e he
    rw [hp] at he
    simp at he
    subst he
    rfl
  · simp [run, step, stepReader, hpc, hlistening, hp]
  · simp [run, step, stepReader, hpc, hlistening, hp]

theorem unparseable_frame_is_dropped_witness :
    (∀ e ∈ processMessage exampleLib (lit "not json"), e.isHandler = false)
    ∧ (run exampleLib [.reader (.frame (lit "not json")), .reader (.frame []),
          .reader (.frame []), .reader (.frame []), .reader (.frame weatherFrame),
          .reader (.frame []), .reader (.frame [])] receivingState).trace
        = receivingState.trace ++ [.receive (.frame (lit "not json")),
            .processMessage (lit "not json"),
            .println [lit "ERROR UNMARSHALLING MSG:", lit "not json"], .loopCheck true,
            .receive (.frame weatherFrame), .processMessage weatherFrame]
          ++ processMessage exampleLib weatherFrame
    ∧ (run exampleLib [.reader (.frame (lit "not json")), .reader (.frame []),
          .reader (.frame []), .reader (.frame []), .reader (.frame weatherFrame),
          .reader (.frame []), .reader (.frame [])] receivingState).reader
        = .loopHead :=
  unparseable_frame_is_dropped exampleLib (lit "not json") weatherFrame
    (.new (lit "invalid character")) receivingState (.frame []) (by rfl) (by rfl)
    (by rfl)

/-! ## Connect before the read loop, and Negotiate -/

/-- C2: with an empty `ConnectionToken`, `Connect` sends exactly one non-nil error on `Done`,
closes `Done` and returns; it neither builds the connect configuration, nor dials, nor sends
the subscribe frame, nor starts the read loop. -/
theorem connect_without_token (lib : Lib) (c : Client) (htoken : c.ConnectionToken = []) :
    Connect lib c
      = .returned
          [ .doneSend (some (.new (lit "client.Negotiate() was not called or was unnsuccessful"))),
            .doneClose ]
    ∧ Event.getWebsocketConfig ∉ (Connect lib c).trace
    ∧ (∀ config, Event.dialConfig config ∉ (Connect lib c).trace)
    ∧ Event.sendSubscribe ∉ (Connect lib c).trace
    ∧ Event.goReadLoop ∉ (Connect lib c).trace := by
  have h : Connect lib c
      = .returned
          [ .doneSend (some (.new (lit "client.Negotiate() was not called or was unnsuccessful"))),
            .doneClose ] := by
    unfold Connect
    rw [if_pos htoken]
  rw [h]
  simp [Started.trace]

theorem connect_without_token_witness :
    Connect exampleLib (exampleClient [] (lit "https://x"))
      = .returned
          [ .doneSend (some (.new (lit "client.Negotiate() was not called or was unnsuccessful"))),
            .doneClose ]
    ∧ Event.getWebsocketConfig ∉ (Connect exampleLib (exampleClient [] (lit "https://x"))).trace
    ∧ (∀ config,
        Event.dialConfig config ∉ (Connect exampleLib (exampleClient [] (lit "https://x"))).trace)
    ∧ Event.sendSubscribe ∉ (Connect exampleLib (exampleClient [] (lit "https://x"))).trace
    ∧ Event.goReadLoop ∉ (Connect exampleLib (exampleClient [] (lit "https://x"))).trace :=
  connect_without_token exampleLib (exampleClient [] (lit "https://x")) (by rfl)

/-- C6: when the negotiate request is answered with a status other than 200, `Negotiate`
returns a non-nil error that wraps the response's status text, and the client (in particular
its `ConnectionToken` and `Cookie`) is unchanged; a client without a token still has none. -/
theorem negotiate_non_200 (lib : Lib) (c : Client) (u : URL) (resp : Response)
    (hurl : lib.urlParse c.HTTPBaseURL = .ok u)
    (hdo : lib.httpDo (negotiateRequest u) = .ok resp)
    (hstatus : resp.StatusCode ≠ 200) :
    (Negotiate lib c).2
      = some (.wrap (lit "error negotiating f1 livetiming api connection: ") (.new resp.Status))
    ∧ (Negotiate lib c).2.map GoError.Error
      = some (lit "error negotiating f1 livetiming api connection: " ++ resp.Status)
    ∧ (Negotiate lib c).1.ConnectionToken = c.ConnectionToken
    ∧ (Negotiate lib c).1.Cookie = c.Cookie
    ∧ (c.ConnectionToken = [] → (Negotiate lib c).1.ConnectionToken = []) := by
  have h : Negotiate lib c
      = (c, some (.wrap (lit "error negotiating f1 livetiming api connection: ")
          (.new resp.Status))) := by
    unfold Negotiate
    rw [hurl]
    simp only [hdo, if_neg hstatus]
  rw [h]
  simp [GoError.Error]

theorem negotiate_non_200_witness :
    (Negotiate exampleLib (exampleClient [] (lit "https://x"))).2
      = some (.wrap (lit "error negotiating f1 livetiming api connection: ")
          (.new (lit "500 Internal Server Error")))
    ∧ (Negotiate exampleLib (exampleClient [] (lit "https://x"))).2.map GoError.Error
      = some (lit "error negotiating f1 livetiming api connection: "
          ++ lit "500 Internal Server Error")
    ∧ (Negotiate exampleLib (exampleClient [] (lit "https://x"))).1.ConnectionToken = []
    ∧ (Negotiate exampleLib (exampleClient [] (lit "https://x"))).1.Cookie = []
    ∧ (([] : GoString) = [] →
        (Negotiate exampleLib (exampleClient [] (lit "https://x"))).1.ConnectionToken = []) :=
  negotiate_non_200 exampleLib (exampleClient [] (lit "https://x"))
    { Scheme := lit "https", Host := lit "x", Path := [], RawQuery := [] }
    { StatusCode := 500, Status := lit "500 Internal Server Error", SetCookie := [],
      Body := .ok [] }
    (by rfl) (by rfl) (by decide)

/-- C10: with the token "T1" and the base URL "://x", which `url.Parse` rejects,
`getWebsocketConfig` returns a nil config and a non-nil error, yet `Connect` goes on to
`websocket.DialConfig` with the nil config and panics there; nothing is sent on `Done` and
`Done` is not closed. The guard `err != err` between the two calls is never true. -/
theorem connect_ignores_config_error :
    getWebsocketConfig exampleLib (exampleClient (lit "T1") (lit "://x"))
      = (none, some (.wrap (lit "invalid BaseURL: ")
          (.wrap (lit "parse \"://x\": ") (.new (lit "missing protocol scheme")))))
    ∧ Connect exampleLib (exampleClient (lit "T1") (lit "://x"))
      = .panicked [.getWebsocketConfig, .dialConfig none, .panicked]
    ∧ doneEvents (Connect exampleLib (exampleClient (lit "T1") (lit "://x"))).trace = [] := by
  refine ⟨by rfl, by rfl, by rfl⟩

/-! ## The connect target -/

set_option maxRecDepth 100000 in
theorem hex_roundtrip : ∀ c < 256,
    (((unhex (upperhex (c >>> 4)) <<< 4) % 256) ||| unhex (upperhex (c &&& 15))) = c
    ∧ ishex (upperhex (c >>> 4)) = true ∧ ishex (upperhex (c &&& 15)) = true := by
  decide

set_option maxRecDepth 100000 in
theorem upperhex_clean : ∀ c < 256,
    (upperhex (c >>> 4) ≠ 38 ∧ upperhex (c >>> 4) ≠ 61 ∧ upperhex (c >>> 4) ≠ 59)
    ∧ (upperhex (c &&& 15) ≠ 38 ∧ upperhex (c &&& 15) ≠ 61 ∧ upperhex (c &&& 15) ≠ 59) := by
  decide

theorem shouldEscape_false {c : Nat} (h : shouldEscape c = false) :
    c ≠ 37 ∧ c ≠ 43 ∧ c ≠ 38 ∧ c ≠ 61 ∧ c ≠ 59 := by
  simp [shouldEscape] at h
  omega

theorem QueryUnescape_plain (c : Nat) (s : GoString) (h37 : c ≠ 37) (h43 : c ≠ 43) :
    QueryUnescape (c :: s) = (QueryUnescape s).map (fun t => c :: t) := by
  rw [QueryUnescape.eq_def]
  simp only [if_neg h37, if_neg h43]

theorem QueryUnescape_plus (s : GoString) :
    QueryUnescape (43 :: s) = (QueryUnescape s).map (fun t => 32 :: t) := by
  rw [QueryUnescape.eq_def]
  simp

theorem QueryUnescape_percent (h l : Nat) (s : GoString) (hh : ishex h = true)
    (hl : ishex l = true) :
    QueryUnescape (37 :: h :: l :: s)
      = (QueryUnescape s).map (fun t => (((unhex h <<< 4) % 256) ||| unhex l) :: t) := by
  rw [QueryUnescape.eq_def]
  simp [hh, hl]

theorem QueryUnescape_QueryEscape (s : GoString) (hs : IsBytes s) :
    QueryUnescape (QueryEscape s) = .ok s := by
  induction s with
  | nil => rfl
  | cons c s ih =>
    have hc : c < 256 := hs c (List.mem_cons_self _ _)
    have ih' := ih (fun b hb => hs b (List.mem_cons_of_mem _ hb))
    unfold QueryEscape
    by_cases h1 : shouldEscape c = false
    · obtain ⟨h37, h43, -⟩ := shouldEscape_false h1
      simp [h1, QueryUnescape_plain, h37, h43, ih', Except.map]
    · by_cases h2 : c = 32
      · subst h2
        simp [shouldEscape, QueryUnescape_plus, ih', Except.map]
      · obtain ⟨hr, hh, hl⟩ := hex_roundtrip c hc
        simp [h1, h2, QueryUnescape_percent, ih', Except.map, hr, hh, hl]

theorem QueryEscape_clean (s : GoString) (hs : IsBytes s) :
    ∀ b ∈ QueryEscape s, b ≠ 38 ∧ b ≠ 61 ∧ b ≠ 59 := by
  induction s with
  | nil => intro b hb; simp [QueryEscape] at hb
  | cons c s ih =>
    have hc : c < 256 := hs c (List.mem_cons_self _ _)
    have ih' := ih (fun b hb => hs b (List.mem_cons_of_mem _ hb))
    intro b hb
    unfold QueryEscape at hb
    rw [List.mem_append] at hb
    rcases hb with hb | hb
    · by_cases h1 : shouldEscape c = false
      · obtain ⟨-, -, h38, h61, h59⟩ := shouldEscape_false h1
        simp [h1] at hb
        subst hb
        exact ⟨h38, h61, h59⟩
      · by_cases h2 : c = 32
        · subst h2
          simp [shouldEscape] at hb
          subst hb
          decide
        · obtain ⟨hh, hl⟩ := upperhex_clean c hc
          simp [h1, h2] at hb
          rcases hb with hb | hb | hb
          · subst hb; decide
          · subst hb; exact hh
          · subst hb; exact hl
    · exact ih' b hb

theorem segments_append_amp (a b : GoString) (ha : 38 ∉ a) :
    segments (a ++ 38 :: b) = a :: segments b := by
  induction a with
  | nil => simp [segments]
  | cons c a ih =>
    have hc : c ≠ 38 := fun h => ha (h ▸ List.mem_cons_self _ _)
    have ih' := ih (fun h => ha (List.mem_cons_of_mem _ h))
    simp [segments, hc, ih']

theorem segments_single (a : GoString) (ha : 38 ∉ a) : segments a = [a] := by
  induction a with
  | nil => rfl
  | cons c a ih =>
    have hc : c ≠ 38 := fun h => ha (h ▸ List.mem_cons_self _ _)
    have ih' := ih (fun h => ha (List.mem_cons_of_mem _ h))
    simp [segments, hc, ih']

theorem cut_append_sep (sep : Nat) (a b : GoString) (ha : sep ∉ a) :
    cut sep (a ++ sep :: b) = (a, b) := by
  induction a with
  | nil => simp [cut]
  | cons c a ih =>
    have hc : c ≠ sep := fun h => ha (h ▸ List.mem_cons_self _ _)
    have ih' := ih (fun h => ha (List.mem_cons_of_mem _ h))
    simp [cut, hc, ih']

/-- A well-formed `key=value` segment appends the value under the key. -/
theorem parseQueryStep_pair (st : Values × Option GoError) (k v : GoString)
    (hk : IsBytes k) (hv : IsBytes v) :
    parseQueryStep st (QueryEscape k ++ 61 :: QueryEscape v) = (valuesAdd st.1 k v, st.2) := by
  have hkc := QueryEscape_clean k hk
  have hvc := QueryEscape_clean v hv
  have h59 : 59 ∉ QueryEscape k ++ 61 :: QueryEscape v := by
    intro h
    rw [List.mem_append, List.mem_cons] at h
    rcases h with h | h | h
    · exact (hkc 59 h).2.2 rfl
    · omega
    · exact (hvc 59 h).2.2 rfl
  have h61 : 61 ∉ QueryEscape k := fun h => (hkc 61 h).2.1 rfl
  unfold parseQueryStep
  rw [if_neg h59, if_neg (by simp), cut_append_sep 61 _ _ h61]
  simp only [QueryUnescape_QueryEscape k hk, QueryUnescape_QueryEscape v hv]

theorem pair_no_amp (k v : GoString) (hk : IsBytes k) (hv : IsBytes v) :
    38 ∉ QueryEscape k ++ 61 :: QueryEscape v := by
  intro h
  rw [List.mem_append, List.mem_cons] at h
  rcases h with h | h | h
  · exact (QueryEscape_clean k hk 38 h).1 rfl
  · omega
  · exact (QueryEscape_clean v hv 38 h).1 rfl

theorem isBytes_lit_keys :
    IsBytes (lit "clientProtocol") ∧ IsBytes (lit "1.5") ∧ IsBytes (lit "connectionData")
    ∧ IsBytes (streamingData) ∧ IsBytes (lit "connectionToken")
    ∧ IsBytes (lit "transport") ∧ IsBytes (lit "webSockets") := by
  unfold IsBytes
  decide

theorem connect_query_shape (c : Client) (b : URL) :
    (connectURL c b).RawQuery
      = (QueryEscape (lit "clientProtocol") ++ 61 :: QueryEscape (lit "1.5")) ++ 38 ::
        ((QueryEscape (lit "connectionData") ++ 61 :: QueryEscape (streamingData))
          ++ 38 ::
        ((QueryEscape (lit "connectionToken") ++ 61 :: QueryEscape c.ConnectionToken) ++ 38 ::
        (QueryEscape (lit "transport") ++ 61 :: QueryEscape (lit "webSockets")))) := by
  have hsort : List.insertionSort (· ≤ ·)
      [lit "connectionData", lit "connectionToken", lit "clientProtocol", lit "transport"]
      = [lit "clientProtocol", lit "connectionData", lit "connectionToken", lit "transport"] := by
    decide
  have hg (k : GoString) (T : GoString) :
      valuesGet [ (lit "connectionData", [streamingData]),
        (lit "connectionToken", [T]), (lit "clientProtocol", [lit "1.5"]),
        (lit "transport", [lit "webSockets"]) ] k
      = if k = lit "connectionData" then [streamingData]
        else if k = lit "connectionToken" then [T]
        else if k = lit "clientProtocol" then [lit "1.5"]
        else if k = lit "transport" then [lit "webSockets"] else [] := by
    simp only [valuesGet, List.lookup]
    repeat' split
    all_goals simp_all
  simp only [connectURL, Encode, List.map, hsort, List.foldl, hg]
  simp

theorem parsed_connect_values (T : GoString) :
    valuesAdd (valuesAdd (valuesAdd (valuesAdd [] (lit "clientProtocol") (lit "1.5"))
      (lit "connectionData") (streamingData)) (lit "connectionToken") T)
      (lit "transport") (lit "webSockets")
      = [ (lit "clientProtocol", [lit "1.5"]),
          (lit "connectionData", [streamingData]),
          (lit "connectionToken", [T]),
          (lit "transport", [lit "webSockets"]) ] := by
  rfl

theorem connect_query_parsed (c : Client) (b : URL) (htoken : IsBytes c.ConnectionToken) :
    ParseQuery (connectURL c b).RawQuery
      = ([ (lit "clientProtocol", [lit "1.5"]),
           (lit "connectionData", [streamingData]),
           (lit "connectionToken", [c.ConnectionToken]),
           (lit "transport", [lit "webSockets"]) ], none) := by
  obtain ⟨h1, h2, h3, h4, h5, h6, h7⟩ := isBytes_lit_keys
  unfold ParseQuery
  rw [connect_query_shape,
    segments_append_amp _ _ (pair_no_amp _ _ h1 h2),
    segments_append_amp _ _ (pair_no_amp _ _ h3 h4),
    segments_append_amp _ _ (pair_no_amp _ _ h5 htoken),
    segments_single _ (pair_no_amp _ _ h6 h7)]
  simp only [List.foldl]
  rw [parseQueryStep_pair _ _ _ h1 h2, parseQueryStep_pair _ _ _ h3 h4,
    parseQueryStep_pair _ _ _ h5 htoken, parseQueryStep_pair _ _ _ h6 h7]
  simp only [parsed_connect_values]

/-- C7: for every token (a byte string) and every base URL that `url.Parse` accepts, the connect
target that `getWebsocketConfig` builds and hands to `websocket.NewConfig` has the path
`/signalr/connect`, and its query string parses without error to exactly the parameters
`connectionData=[{"Name":"Streaming"}]`, `connectionToken=T`, `clientProtocol=1.5` and
`transport=webSockets`, compared key by key, whatever their order. -/
theorem connect_target_query (lib : Lib) (c : Client) (b : URL)
    (hparse : lib.urlParse c.WSBaseURL = .ok b) (htoken : IsBytes c.ConnectionToken) :
    (connectURL c b).Path = lit "/signalr/connect"
    ∧ (ParseQuery (connectURL c b).RawQuery).2 = none
    ∧ (∀ k, valuesGet (ParseQuery (connectURL c b).RawQuery).1 k
        = valuesGet
            [ (lit "connectionData", [streamingData]),
              (lit "connectionToken", [c.ConnectionToken]),
              (lit "clientProtocol", [lit "1.5"]),
              (lit "transport", [lit "webSockets"]) ] k)
    ∧ getWebsocketConfig lib c
      = match lib.newConfig (lib.urlString (connectURL c b)) (lib.urlString (connectURL c b)) with
        | .fail config err =>
          (config, some (.wrap (lit "error creating websocket config: ") err))
        | .ok config =>
          (some { config with
                    Header := [ (lit "User-Agent", [lit "BestHTTP"]),
                                (lit "Accept-Encoding", [lit "gzip,identity"]),
                                (lit "Cookie", [c.Cookie]) ] },
           none) := by
  refine ⟨rfl, ?_, ?_, ?_⟩
  · rw [connect_query_parsed c b htoken]
  · intro k
    rw [connect_query_parsed c b htoken]
    simp only [valuesGet, List.lookup]
    by_cases h1 : k = lit "clientProtocol"
    · subst h1; rfl
    · by_cases h2 : k = lit "connectionData"
      · subst h2; rfl
      · by_cases h3 : k = lit "connectionToken"
        · subst h3; rfl
        · by_cases h4 : k = lit "transport"
          · subst h4; rfl
          · have e1 : (k == lit "clientProtocol") = false := by simpa using h1
            have e2 : (k == lit "connectionData") = false := by simpa using h2
            have e3 : (k == lit "connectionToken") = false := by simpa using h3
            have e4 : (k == lit "transport") = false := by simpa using h4
            simp only [e1, e2, e3, e4]
  · unfold getWebsocketConfig
    rw [hparse]

theorem connect_target_query_witness :
    (connectURL (exampleClient (lit "T1") (lit "https://x"))
        { Scheme := lit "https", Host := lit "x", Path := [], RawQuery := [] }).Path
      = lit "/signalr/connect"
    ∧ (ParseQuery (connectURL (exampleClient (lit "T1") (lit "https://x"))
        { Scheme := lit "https", Host := lit "x", Path := [], RawQuery := [] }).RawQuery).2 = none
    ∧ (∀ k, valuesGet (ParseQuery (connectURL (exampleClient (lit "T1") (lit "https://x"))
          { Scheme := lit "https", Host := lit "x", Path := [], RawQuery := [] }).RawQuery).1 k
        = valuesGet
            [ (lit "connectionData", [streamingData]),
              (lit "connectionToken", [lit "T1"]),
              (lit "clientProtocol", [lit "1.5"]),
              (lit "transport", [lit "webSockets"]) ] k)
    ∧ getWebsocketConfig exampleLib (exampleClient (lit "T1") (lit "https://x"))
      = match exampleLib.newConfig
          (exampleLib.urlString (connectURL (exampleClient (lit "T1") (lit "https://x"))
            { Scheme := lit "https", Host := lit "x", Path := [], RawQuery := [] }))
          (exampleLib.urlString (connectURL (exampleClient (lit "T1") (lit "https://x"))
            { Scheme := lit "https", Host := lit "x", Path := [], RawQuery := [] })) with
        | .fail config err =>
          (config, some (.wrap (lit "error creating websocket config: ") err))
        | .ok config =>
          (some { config with
                    Header := [ (lit "User-Agent", [lit "BestHTTP"]),
                                (lit "Accept-Encoding", [lit "gzip,identity"]),
                                (lit "Cookie", [[]]) ] },
           none) :=
  connect_target_query exampleLib (exampleClient (lit "T1") (lit "https://x"))
    { Scheme := lit "https", Host := lit "x", Path := [], RawQuery := [] } (by rfl)
    (by unfold IsBytes; decide)

/-! ## The streaming phase: invariants of every schedule -/

theorem run_invariant (lib : Lib) (P : State → Prop)
    (hstep : ∀ a s s', P s → step lib a s = some s' → P s') :
    ∀ sched s, P s → P (run lib sched s) := by
  intro sched
  induction sched with
  | nil => intro s hs; exact hs
  | cons a sched ih =>
    intro s hs
    unfold run
    cases h : step lib a s with
    | none => exact ih s hs
    | some s' => exact ih s' (hstep a s s' hs h)

theorem processMessage_events (lib : Lib) (msg : GoString) :
    ∀ e ∈ processMessage lib msg, e.isHandler = true ∨ ∃ args, e = .println args := by
  intro e he
  unfold processMessage at he
  split at he
  · simp at he
    exact Or.inr ⟨_, he⟩
  · exact Or.inl (processEntries_isHandler _ e he)

theorem doneEvents_append (t l : List Event) :
    doneEvents (t ++ l) = doneEvents t ++ doneEvents l := by
  simp [doneEvents]

theorem doneEvents_processMessage (lib : Lib) (msg : GoString) :
    doneEvents (processMessage lib msg) = [] := by
  unfold doneEvents
  rw [List.filter_eq_nil_iff]
  intro e he
  rcases processMessage_events lib msg e he with h | ⟨args, h⟩
  · cases e <;> simp [Event.isHandler] at h ⊢
  · subst h; simp

theorem interruptRecv_not_mem_processMessage (lib : Lib) (msg : GoString) :
    Event.interruptRecv ∉ processMessage lib msg := by
  intro he
  rcases processMessage_events lib msg _ he with h | ⟨args, h⟩
  · simp [Event.isHandler] at h
  · simp at h

theorem doneInv_step (lib : Lib) (a : Action) (s s' : State) (hs : doneInv s)
    (h : step lib a s = some s') : doneInv s' := by
  cases a with
  | interrupt =>
    simp only [step, Option.some.injEq] at h
    subst h
    exact hs
  | main =>
    have d1 : doneEvents [Event.interruptRecv] = [] := rfl
    have d2 : doneEvents [Event.listeningFalse] = [] := rfl
    have d3 : ∀ v, doneEvents [Event.doneSend v] = [Event.doneSend v] := fun _ => rfl
    have d4 : doneEvents [Event.doneClose] = [Event.doneClose] := rfl
    have d5 : doneEvents [Event.sockClose] = [] := rfl
    simp only [step, stepMain] at h
    unfold doneInv at hs
    cases hm : s.main <;> simp only [hm] at h hs
    · split at h
      · simp only [Option.some.injEq] at h
        subst h
        simp [doneInv, doneEvents_append, d1, hs.1]
      · simp at h
    · simp only [Option.some.injEq] at h
      subst h
      simp [doneInv, doneEvents_append, d2, hs.1, hs.2]
    · simp only [Option.some.injEq] at h
      subst h
      simp [doneInv, doneEvents_append, d3, hs.1, hs.2]
    · simp only [Option.some.injEq] at h
      subst h
      obtain ⟨⟨v, hv⟩, hi⟩ := hs
      simp [doneInv, doneEvents_append, d4, hv, hi]
    · simp only [Option.some.injEq] at h
      subst h
      obtain ⟨⟨v, hv⟩, hi⟩ := hs
      simp [doneInv, doneEvents_append, d5, hv, hi]
    · simp at h
  | reader r =>
    simp only [step, stepReader] at h
    have key : ∀ l : List Event, doneEvents l = [] → Event.interruptRecv ∉ l →
        ∀ s' : State, s'.main = s.main → s'.trace = s.trace ++ l → doneInv s' := by
      intro l hl hn s' hm ht
      unfold doneInv at hs ⊢
      rw [hm, ht]
      cases hmm : s.main <;> simp [hmm] at hs ⊢ <;> simp [doneEvents_append, hl, hs, hn]
    split at h
    · simp only [Option.some.injEq] at h
      subst h
      exact key [.loopCheck s.listening] (by simp [doneEvents]) (by simp) _ rfl rfl
    · split at h <;>
      · simp only [Option.some.injEq] at h
        subst h
        exact key [.receive _] (by simp [doneEvents]) (by simp) _ rfl rfl
    · split at h
      · split at h
        · simp only [Option.some.injEq] at h
          subst h
          exact key [.loopEndEOF] (by simp [doneEvents]) (by simp) _ rfl rfl
        · simp only [Option.some.injEq] at h
          subst h
          exact key [.println _, .loopEndFail _] (by simp [doneEvents]) (by simp) _ rfl rfl
      · simp only [Option.some.injEq] at h
        subst h
        exact key [] (by simp [doneEvents]) (by simp) _ rfl (by simp)
    · simp only [Option.some.injEq] at h
      subst h
      refine key (.processMessage _ :: processMessage lib _) ?_ ?_ _ rfl rfl
      · rw [show ∀ (x : Event) (l : List Event), x :: l = [x] ++ l from fun _ _ => rfl,
          doneEvents_append, doneEvents_processMessage]
        simp [doneEvents]
      · simp [interruptRecv_not_mem_processMessage]
    · simp at h

theorem afterListeningFalse_append (t l : List Event) (h : Event.listeningFalse ∈ t) :
    afterListeningFalse (t ++ l) = afterListeningFalse t ++ l := by
  induction t with
  | nil => simp at h
  | cons x t ih =>
    by_cases hx : x = .listeningFalse
    · subst hx
      simp [afterListeningFalse, List.dropWhile]
    · have hm : Event.listeningFalse ∈ t := by
        rcases List.mem_cons.1 h with h | h
        · exact absurd h.symm hx
        · exact h
      have hx' : (match x with
          | .listeningFalse => false
          | _ => true) = true := by
        cases x <;> first | rfl | exact absurd rfl hx
      have := ih hm
      simp only [afterListeningFalse] at this ⊢
      simp only [List.cons_append, List.dropWhile, hx']
      exact this

theorem afterListeningFalse_first (t l : List Event) (h : Event.listeningFalse ∉ t) :
    afterListeningFalse (t ++ .listeningFalse :: l) = l := by
  induction t with
  | nil => simp [afterListeningFalse, List.dropWhile]
  | cons x t ih =>
    have hx : x ≠ .listeningFalse := fun e => h (e ▸ List.mem_cons_self _ _)
    have hm : Event.listeningFalse ∉ t := fun e => h (List.mem_cons_of_mem _ e)
    have hx' : (match x with
        | .listeningFalse => false
        | _ => true) = true := by
      cases x <;> first | rfl | exact absurd rfl hx
    have := ih hm
    simp only [afterListeningFalse] at this ⊢
    simp only [List.cons_append, List.dropWhile, hx']
    exact this

theorem afterListeningFalse_none (t : List Event) (h : Event.listeningFalse ∉ t) :
    afterListeningFalse t = [] := by
  induction t with
  | nil => rfl
  | cons x t ih =>
    have hx : x ≠ .listeningFalse := fun e => h (e ▸ List.mem_cons_self _ _)
    have hm : Event.listeningFalse ∉ t := fun e => h (List.mem_cons_of_mem _ e)
    have hx' : (match x with
        | .listeningFalse => false
        | _ => true) = true := by
      cases x <;> first | rfl | exact absurd rfl hx
    have := ih hm
    simp only [afterListeningFalse] at this ⊢
    simp only [List.dropWhile, hx']
    exact this

theorem dispatchCount_append (t l : List Event) :
    dispatchCount (t ++ l) = dispatchCount t + dispatchCount l := by
  simp [dispatchCount]

theorem dispatchCount_processMessage (lib : Lib) (msg : GoString) :
    dispatchCount (processMessage lib msg) = 0 := by
  unfold dispatchCount
  rw [List.countP_eq_zero]
  intro e he
  rcases processMessage_events lib msg e he with h | ⟨args, h⟩
  · cases e <;> simp [Event.isHandler] at h ⊢
  · subst h; simp

theorem special_not_mem_processMessage (lib : Lib) (msg : GoString) :
    Event.listeningFalse ∉ processMessage lib msg
    ∧ Event.loopEndEOF ∉ processMessage lib msg
    ∧ (∀ e, Event.loopEndFail e ∉ processMessage lib msg)
    ∧ (∀ v, Event.doneSend v ∉ processMessage lib msg)
    ∧ (∀ b, Event.loopCheck b ∉ processMessage lib msg) := by
  refine ⟨?_, ?_, ?_, ?_, ?_⟩
  all_goals
    intros
    intro he
    rcases processMessage_events lib msg _ he with h | ⟨args, h⟩
    · simp [Event.isHandler] at h
    · simp at h

theorem cancelInv_step (lib : Lib) (a : Action) (s s' : State) (hs : cancelInv s)
    (h : step lib a s = some s') : cancelInv s' := by
  cases a with
  | interrupt =>
    simp only [step, Option.some.injEq] at h
    subst h
    exact hs
  | main =>
    simp only [step, stepMain] at h
    unfold cancelInv at hs
    cases hm : s.main <;> simp only [hm] at h hs
    · split at h
      · simp only [Option.some.injEq] at h
        subst h
        simp [cancelInv, hs]
      · simp at h
    · simp only [Option.some.injEq] at h
      subst h
      have e0 : afterListeningFalse (s.trace ++ [Event.listeningFalse]) = [] :=
        afterListeningFalse_first _ _ hs
      have hp : pending s.reader ≤ 1 := by cases s.reader <;> simp [pending]
      simp [cancelInv, e0, dispatchCount, hp]
    iterate 3
      · simp only [Option.some.injEq] at h
        subst h
        obtain ⟨h1, h2, h3, h4⟩ := hs
        simp only [cancelInv]
        rw [afterListeningFalse_append _ _ h2]
        refine ⟨h1, by simp [h2], ?_, ?_⟩
        · rw [dispatchCount_append]
          simpa [dispatchCount] using h3
        · intro b hb
          rw [List.mem_append] at hb
          rcases hb with hb | hb
          · exact h4 b hb
          · exact absurd hb (by simp)
    · simp at h
  | reader r =>
    simp only [step, stepReader] at h
    -- a reader step that appends `l`, moves to `pc`, keeps `listening` and `main`
    have key : ∀ (l : List Event) (s' : State), s'.main = s.main → s'.listening = s.listening →
        s'.trace = s.trace ++ l → Event.listeningFalse ∉ l →
        (s.listening = false → dispatchCount l + pending s'.reader ≤ pending s.reader) →
        (s.listening = false → ∀ b, Event.loopCheck b ∈ l → b = false) → cancelInv s' := by
      intro l s' hm hl ht hn hd hc
      unfold cancelInv at hs ⊢
      rw [hm, hl, ht]
      cases hmm : s.main <;> simp only [hmm] at hs ⊢
      · simpa [hn] using hs
      · simpa [hn] using hs
      all_goals
        obtain ⟨h1, h2, h3, h4⟩ := hs
        rw [afterListeningFalse_append _ _ h2]
        refine ⟨h1, by simp [h2], ?_, ?_⟩
        · rw [dispatchCount_append]
          have := hd h1
          omega
        · intro b hb
          rw [List.mem_append] at hb
          rcases hb with hb | hb
          · exact h4 b hb
          · exact hc h1 b hb
    have n1 := fun msg => (special_not_mem_processMessage lib msg).1
    have n5 := fun msg => (special_not_mem_processMessage lib msg).2.2.2.2
    cases hr : s.reader <;> simp only [hr] at h
    · simp only [Option.some.injEq] at h
      subst h
      refine key [.loopCheck s.listening] _ rfl rfl rfl (by simp) ?_ ?_
      · intro hf; simp [hf, dispatchCount, pending, hr]
      · intro hf b hb; simp at hb; rw [hb, hf]
    · split at h <;>
      · simp only [Option.some.injEq] at h
        subst h
        exact key [.receive _] _ rfl rfl rfl (by simp)
          (by intro; simp [dispatchCount, pending, hr]) (by intro _ b hb; simp at hb)
    · split at h
      · split at h
        · simp only [Option.some.injEq] at h
          subst h
          exact key [.loopEndEOF] _ rfl rfl rfl (by simp)
            (by intro; simp [dispatchCount, pending, hr]) (by intro _ b hb; simp at hb)
        · simp only [Option.some.injEq] at h
          subst h
          exact key [.println _, .loopEndFail _] _ rfl rfl rfl (by simp)
            (by intro; simp [dispatchCount, pending, hr]) (by intro _ b hb; simp at hb)
      · simp only [Option.some.injEq] at h
        subst h
        exact key [] _ rfl rfl (by simp) (by simp)
          (by intro; simp [dispatchCount, pending, hr]) (by intro _ b hb; simp at hb)
    · simp only [Option.some.injEq] at h
      subst h
      refine key (.processMessage _ :: processMessage lib _) _ rfl rfl rfl ?_ ?_ ?_
      · simp [n1]
      · intro
        rw [show ∀ (x : Event) (l : List Event), x :: l = [x] ++ l from fun _ _ => rfl,
          dispatchCount_append, dispatchCount_processMessage]
        simp [dispatchCount, pending, hr]
      · intro _ b hb
        simp [n5] at hb
    · simp at h

theorem connect_streaming_start (lib : Lib) (c : Client) (s0 : State)
    (h : Connect lib c = .streaming s0) :
    ∃ config,
      s0 = streamStart [.getWebsocketConfig, .dialConfig config, .sendSubscribe, .goReadLoop] := by
  unfold Connect at h
  split at h
  · simp at h
  · simp only at h
    split at h
    · simp at h
    · split at h
      · simp at h
      · simp at h
      · simp only [Started.streaming.injEq] at h
        exact ⟨_, h.symm⟩

theorem doneInv_start (trace : List Event) (hd : doneEvents trace = [])
    (hi : Event.interruptRecv ∉ trace) : doneInv (streamStart trace) := by
  simp [doneInv, streamStart, hd, hi]

theorem main_returns_after_interrupt (lib : Lib) (s : State) :
    (run lib (.interrupt :: List.replicate 5 .main) s).main = .returned := by
  obtain ⟨l, e, m, r, i, t⟩ := s
  cases m <;> simp [run, step, stepMain, List.replicate]

theorem stepReader_keeps_main (lib : Lib) (r : Recv) (s s' : State)
    (h : stepReader lib r s = some s') : s'.main = s.main ∧ s'.interrupt = s.interrupt := by
  unfold stepReader at h
  split at h
  · simp only [Option.some.injEq] at h
    subst h
    exact ⟨rfl, rfl⟩
  · split at h <;>
    · simp only [Option.some.injEq] at h
      subst h
      exact ⟨rfl, rfl⟩
  · split at h
    · split at h <;>
      · simp only [Option.some.injEq] at h
        subst h
        exact ⟨rfl, rfl⟩
    · simp only [Option.some.injEq] at h
      subst h
      exact ⟨rfl, rfl⟩
  · simp only [Option.some.injEq] at h
    subst h
    exact ⟨rfl, rfl⟩
  · simp at h

theorem blocked_without_interrupt (lib : Lib) :
    ∀ (sched : List Action) (s : State), s.interrupt = false → s.main = .waitInterrupt →
      Action.interrupt ∉ sched →
      (run lib sched s).interrupt = false ∧ (run lib sched s).main = .waitInterrupt := by
  intro sched
  induction sched with
  | nil => intro s hi hm _; exact ⟨hi, hm⟩
  | cons a sched ih =>
    intro s hi hm hn
    have hn' : Action.interrupt ∉ sched := fun h => hn (List.mem_cons_of_mem _ h)
    unfold run
    cases a with
    | interrupt => exact absurd (List.mem_cons_self _ _) hn
    | main =>
      have hnone : step lib .main s = none := by
        simp [step, stepMain, hm, hi]
      rw [hnone]
      exact ih s hi hm hn'
    | reader r =>
      cases hstep : step lib (.reader r) s with
      | none => exact ih s hi hm hn'
      | some s' =>
        have hk := stepReader_keeps_main lib r s s' hstep
        exact ih s' (hk.2.trans hi) (hk.1.trans hm) hn'

/-- C1 (amended): in every run of `Connect` that reaches the streaming phase, the events on
`Done` are at any time nothing, one send, or one send followed by the close; when `Connect` has
returned they are exactly one send followed by the close; anything is sent on `Done` only after
`Connect` received the cancellation on `Interrupt`; as long as the caller has not posted on
`Interrupt`, whatever the read loop does (a receive failure and a clean remote close
included), `Connect` stays blocked on `<-c.Interrupt` and nothing is sent on `Done`; and once
cancellation is posted `Connect` returns within five of its own steps. -/
theorem done_once_after_interrupt (lib : Lib) (c : Client) (s0 : State)
    (hstart : Connect lib c = .streaming s0) (sched : List Action) :
    (doneEvents (run lib sched s0).trace = []
      ∨ (∃ v, doneEvents (run lib sched s0).trace = [.doneSend v])
      ∨ (∃ v, doneEvents (run lib sched s0).trace = [.doneSend v, .doneClose]))
    ∧ ((run lib sched s0).main = .returned →
        ∃ v, doneEvents (run lib sched s0).trace = [.doneSend v, .doneClose])
    ∧ (doneEvents (run lib sched s0).trace ≠ [] →
        Event.interruptRecv ∈ (run lib sched s0).trace)
    ∧ (Action.interrupt ∉ sched →
        (run lib sched s0).main = .waitInterrupt
        ∧ stepMain (run lib sched s0) = none
        ∧ Event.interruptRecv ∉ (run lib sched s0).trace
        ∧ doneEvents (run lib sched s0).trace = [])
    ∧ (run lib (.interrupt :: List.replicate 5 .main) (run lib sched s0)).main = .returned := by
  obtain ⟨config, rfl⟩ := connect_streaming_start lib c s0 hstart
  have hinv := run_invariant lib doneInv (doneInv_step lib) sched _
    (doneInv_start [.getWebsocketConfig, .dialConfig config, .sendSubscribe, .goReadLoop]
      (by rfl) (by simp))
  refine ⟨?_, ?_, ?_, ?_, main_returns_after_interrupt lib _⟩
  · unfold doneInv at hinv
    split at hinv
    · exact Or.inl hinv.1
    · exact Or.inl hinv.1
    · exact Or.inl hinv.1
    · exact Or.inr (Or.inl hinv.1)
    · exact Or.inr (Or.inr hinv.1)
    · exact Or.inr (Or.inr hinv.1)
  · intro hret
    unfold doneInv at hinv
    rw [hret] at hinv
    exact hinv.1
  · intro hne
    unfold doneInv at hinv
    split at hinv
    · exact absurd hinv.1 hne
    all_goals exact hinv.2
  · intro hquiet
    obtain ⟨hi, hm⟩ := blocked_without_interrupt lib sched
      (streamStart [.getWebsocketConfig, .dialConfig config, .sendSubscribe, .goReadLoop])
      rfl rfl hquiet
    unfold doneInv at hinv
    rw [hm] at hinv
    refine ⟨hm, ?_, hinv.2, hinv.1⟩
    simp [stepMain, hm, hi]

theorem done_once_after_interrupt_witness :
    (Connect exampleLib (exampleClient (lit "T1") (lit "wss://x")) = .streaming exampleStart
      ∧ (doneEvents (run exampleLib closeThenCancelSchedule exampleStart).trace = []
        ∨ (∃ v, doneEvents (run exampleLib closeThenCancelSchedule exampleStart).trace
            = [.doneSend v])
        ∨ (∃ v, doneEvents (run exampleLib closeThenCancelSchedule exampleStart).trace
            = [.doneSend v, .doneClose]))
      ∧ ((run exampleLib closeThenCancelSchedule exampleStart).main = .returned →
          ∃ v, doneEvents (run exampleLib closeThenCancelSchedule exampleStart).trace
            = [.doneSend v, .doneClose])
      ∧ (doneEvents (run exampleLib closeThenCancelSchedule exampleStart).trace ≠ [] →
          Event.interruptRecv ∈ (run exampleLib closeThenCancelSchedule exampleStart).trace)
      ∧ (Action.interrupt ∉ closeThenCancelSchedule →
          (run exampleLib closeThenCancelSchedule exampleStart).main = .waitInterrupt
          ∧ stepMain (run exampleLib closeThenCancelSchedule exampleStart) = none
          ∧ Event.interruptRecv ∉ (run exampleLib closeThenCancelSchedule exampleStart).trace
          ∧ doneEvents (run exampleLib closeThenCancelSchedule exampleStart).trace = [])
      ∧ (run exampleLib (.interrupt :: List.replicate 5 .main)
          (run exampleLib closeThenCancelSchedule exampleStart)).main = .returned)
    ∧ (Action.interrupt ∉ remoteCloseSchedule
      ∧ (run exampleLib remoteCloseSchedule exampleStart).main = .waitInterrupt
      ∧ stepMain (run exampleLib remoteCloseSchedule exampleStart) = none
      ∧ Event.interruptRecv ∉ (run exampleLib remoteCloseSchedule exampleStart).trace
      ∧ doneEvents (run exampleLib remoteCloseSchedule exampleStart).trace = []) :=
  ⟨⟨by rfl,
      done_once_after_interrupt exampleLib (exampleClient (lit "T1") (lit "wss://x"))
        exampleStart (by rfl) closeThenCancelSchedule⟩,
    ⟨by simp [remoteCloseSchedule],
      (done_once_after_interrupt exampleLib (exampleClient (lit "T1") (lit "wss://x"))
        exampleStart (by rfl) remoteCloseSchedule).2.2.2.1 (by simp [remoteCloseSchedule])⟩⟩

/-- C1 (counterexample): `Connect` reaches the streaming phase, the remote closes the stream
cleanly (the receive reports EOF and the read loop returns), and nobody posts on `Interrupt`:
`Connect` stays blocked on `<-c.Interrupt`, neither goroutine can move, and zero values have
been sent on `Done`, which is not closed. -/
theorem remote_close_sends_nothing :
    Connect exampleLib (exampleClient (lit "T1") (lit "wss://x")) = .streaming exampleStart
    ∧ (run exampleLib remoteCloseSchedule exampleStart).trace
      = exampleStart.trace
        ++ [.loopCheck true, .receive (.fail (.new (lit "EOF"))), .loopEndEOF]
    ∧ (run exampleLib remoteCloseSchedule exampleStart).reader = .done
    ∧ (run exampleLib remoteCloseSchedule exampleStart).main = .waitInterrupt
    ∧ (stepMain (run exampleLib remoteCloseSchedule exampleStart)).isNone = true
    ∧ (stepReader exampleLib (.frame [])
        (run exampleLib remoteCloseSchedule exampleStart)).isNone = true
    ∧ doneEvents (run exampleLib remoteCloseSchedule exampleStart).trace = [] := by
  refine ⟨by rfl, by rfl, by rfl, by rfl, by rfl, by rfl, by rfl⟩

theorem cancelInv_start (trace : List Event) (h : Event.listeningFalse ∉ trace) :
    cancelInv (streamStart trace) := by
  simp [cancelInv, streamStart, h]

/-- C9 (amended): in every run of `Connect` that reaches the streaming phase, after
`listening = false` has been executed every evaluation of the loop condition is false, and
`processMessage` is called at most once more (for the frame of the iteration that had already
passed the loop condition). -/
theorem at_most_one_dispatch_after_cancel (lib : Lib) (c : Client) (s0 : State)
    (hstart : Connect lib c = .streaming s0) (sched : List Action) :
    dispatchCount (afterListeningFalse (run lib sched s0).trace) ≤ 1
    ∧ ∀ b, Event.loopCheck b ∈ afterListeningFalse (run lib sched s0).trace → b = false := by
  obtain ⟨config, rfl⟩ := connect_streaming_start lib c s0 hstart
  have hinv := run_invariant lib cancelInv (cancelInv_step lib) sched _
    (cancelInv_start [.getWebsocketConfig, .dialConfig config, .sendSubscribe, .goReadLoop]
      (by simp))
  unfold cancelInv at hinv
  split at hinv
  · rw [afterListeningFalse_none _ hinv]
    simp [dispatchCount]
  · rw [afterListeningFalse_none _ hinv]
    simp [dispatchCount]
  · obtain ⟨-, -, h3, h4⟩ := hinv
    exact ⟨by omega, h4⟩

theorem at_most_one_dispatch_after_cancel_witness :
    Connect exampleLib (exampleClient (lit "T1") (lit "wss://x")) = .streaming exampleStart
    ∧ dispatchCount (afterListeningFalse (run exampleLib lateFrameSchedule exampleStart).trace) ≤ 1
    ∧ ∀ b, Event.loopCheck b
        ∈ afterListeningFalse (run exampleLib lateFrameSchedule exampleStart).trace → b = false :=
  ⟨by rfl,
    at_most_one_dispatch_after_cancel exampleLib (exampleClient (lit "T1") (lit "wss://x"))
      exampleStart (by rfl) lateFrameSchedule⟩

/-- C9 (counterexample): the reader has passed the loop condition when the caller cancels;
`Connect` receives from `Interrupt` and sets `listening = false`; then a frame arrives, and the
reader calls `processMessage` on it, which calls the weather handler. -/
theorem dispatch_after_cancellation :
    (run exampleLib lateFrameSchedule exampleStart).trace
      = exampleStart.trace
        ++ [ .loopCheck true, .interruptRecv, .listeningFalse,
             .receive (.frame weatherFrame), .processMessage weatherFrame,
             .writeToWeatherChannel weatherEntry ]
    ∧ dispatchCount (afterListeningFalse (run exampleLib lateFrameSchedule exampleStart).trace)
      = 1 := by
  refine ⟨by rfl, by rfl⟩

/-- The guard `err != err` in `Connect` never fires: with a token present, `DialConfig` is
called with whatever `getWebsocketConfig` returned, error or not. -/
theorem connect_always_dials (lib : Lib) (c : Client) (htoken : c.ConnectionToken ≠ []) :
    Event.dialConfig (getWebsocketConfig lib c).1 ∈ (Connect lib c).trace := by
  unfold Connect
  rw [if_neg htoken]
  simp only [ne_eq, not_true_eq_false, if_false]
  split <;> simp [Started.trace, streamStart]

end F1LiveTiming
